import Mathlib

/-!
A shallow embedding of `custom_components/rest_file_command/__init__.py`
(the `rest_file_command` Home Assistant integration) and proofs about it.

The integration registers one service per configured command.  Each service
invocation renders the URL template, checks that the upload file exists,
renders the header templates, applies the `content_type` override, opens the
file, issues one HTTP request, logs the status, and optionally decodes the
response body.  A separate `reload` service atomically replaces the command
set.

The embedding models the handler as a pure function from the command
configuration, a filesystem oracle, a transport oracle and the service call
to a trace of observable events plus an `Except` outcome.  Machine-level
collaborators (Jinja template engine, aiohttp session, filesystem) are
parameters; the control flow, branch conditions and raised errors are
translated line by line from the source.
-/

set_option autoImplicit false

namespace RestFileCommand

/-- HTTP methods accepted by the schema (`SUPPORT_REST_METHODS`, line 48). -/
inductive Method
  | get | patch | post | put | delete
  deriving DecidableEq, Repr

/-- Variables supplied with a service call (`service.data`): a string-keyed
mapping, modelled as an association list. -/
abbrev VarMap := List (String × String)

/-- A config template (`cv.template`): rendering with the call variables
either produces a string or raises a template error
(`Template.async_render`, lines 120-122 and 130-132). -/
abbrev Template := VarMap → Except Unit String

/-- Python `dict.get`: first value stored under the key, if any. -/
def dictGet {α : Type} (d : List (String × α)) (k : String) : Option α :=
  (d.find? (fun p => p.1 == k)).map (fun p => p.2)

/-- Python `d[k] = v` on a dict: update the entry in place when the key is
present, append it otherwise.  (A real dict has unique keys; on a list with
duplicate keys every entry of that key is updated.) -/
def dictInsert {α : Type} (d : List (String × α)) (k : String) (v : α) :
    List (String × α) :=
  if d.any (fun p => p.1 == k) then
    d.map (fun p => if p.1 == k then (k, v) else p)
  else d ++ [(k, v)]

/-- One configured command (the validated `COMMAND_SCHEMA` entry captured by
`async_register_rest_command`, lines 100-116).  `username`/`password` are
`vol.Inclusive`; `content_type` is the optional override. -/
structure CommandConfig where
  url : Template
  method : Method
  headers : List (String × Template)
  username : Option String
  password : Option String
  timeout : Nat
  content_type : Option String
  verify_ssl : Bool

/-- A service call: caller variables (the key `"file"` carries the upload
path when the caller supplies it) and whether a response was requested
(`service.return_response`). -/
structure ServiceCall where
  data : VarMap
  return_response : Bool

/-- The single HTTP request handed to the aiohttp session (line 140-145):
method, rendered URL, `headers or None`, basic-auth pair, timeout. -/
structure RequestRecord where
  method : Method
  url : String
  headers : Option (List (String × String))
  auth : Option (String × String)
  timeout : Nat
  deriving DecidableEq, Repr

/-- Observable side effects of one invocation, in program order. -/
inductive Event
  /-- A header template was rendered (loop at lines 129-132). -/
  | renderHeader (name : String)
  /-- The upload file was opened for binary read (line 138). -/
  | openFile (path : String)
  /-- A request was sent over the network (line 140). -/
  | networkRequest (req : RequestRecord)
  /-- The response body stream was read (`response.json()`/`response.text()`,
  lines 166-168). -/
  | readBody
  /-- The `_LOGGER.debug` success event with response URL and status (line 148). -/
  | logDebug (url : String) (status : Nat)
  /-- The `_LOGGER.warning` error event with response URL and status (line 154). -/
  | logWarning (url : String) (status : Nat)
  /-- The `_LOGGER.error` transport failure event (line 198). -/
  | logError
  deriving DecidableEq, Repr

/-- Exceptions a body decode can raise: `json.decoder.JSONDecodeError`,
`AttributeError` (both caught at line 169) and `UnicodeDecodeError`
(caught at line 179). -/
inductive DecodeExn
  | jsonDecodeError | attributeError | unicodeDecodeError
  deriving DecidableEq, Repr

instance {ε α : Type} [DecidableEq ε] [DecidableEq α] :
    DecidableEq (Except ε α) := fun x y =>
  match x, y with
  | .ok a, .ok b =>
    if h : a = b then .isTrue (congrArg Except.ok h)
    else .isFalse (fun hh => h (Except.ok.inj hh))
  | .error a, .error b =>
    if h : a = b then .isTrue (congrArg Except.error h)
    else .isFalse (fun hh => h (Except.error.inj hh))
  | .ok _, .error _ => .isFalse (fun hh => Except.noConfusion hh)
  | .error _, .ok _ => .isFalse (fun hh => Except.noConfusion hh)

/-- A raw aiohttp response: status, final URL, content type, and the results
of reading the body as JSON or as text (each may raise a decode exception). -/
structure RawResponse where
  status : Nat
  url : String
  content_type : String
  json : Except DecodeExn String
  text : Except DecodeExn String
  deriving DecidableEq, Repr

/-- Outcome of the awaited aiohttp call: a response, a `TimeoutError`
(caught at line 190) or an `aiohttp.ClientError` (caught at line 197). -/
inductive TransportResult
  | ok (resp : RawResponse)
  | timeoutError
  | clientError
  deriving DecidableEq, Repr

/-- Errors escaping the handler.  The first five mirror the raise sites in
the source; `typeError` is the bare Python `TypeError` that
`os.path.exists(None)` raises when the call carries no `"file"` key
(`CALL_SCHEMA` at lines 68-72 would require it, but it is never attached to
the registration at line 206). -/
inductive ServiceError
  /-- Raised as `HomeAssistantError("File not found: " + path)`, line 126. -/
  | fileNotFound (path : String)
  /-- Raised as `HomeAssistantError` with key `decoding_error` and placeholders
  `request_url`, `decoding_type`, lines 170-187. -/
  | decodingError (request_url : String) (decoding_type : String)
  /-- Raised as `HomeAssistantError` with key `timeout`, lines 190-195. -/
  | timeout (request_url : String)
  /-- Raised as `HomeAssistantError` with key `client_error`, lines 197-203. -/
  | clientError (request_url : String)
  /-- A `TemplateError` propagating out of `async_render` (a
  `HomeAssistantError` subclass, the spec's ValidationError). -/
  | templateError
  /-- Bare, unclassified Python exception. -/
  | typeError (message : String)
  deriving DecidableEq, Repr

/-- Whether an error belongs to the closed five-variant taxonomy of the
design (ValidationError, FileNotFound, Timeout, ClientError,
DecodingError); the bare `typeError` does not. -/
def ServiceError.isClassified : ServiceError → Bool
  | .typeError _ => false
  | _ => true

/-- The value returned when a response is requested and decoded:
`{"content": ..., "status": ...}`, line 188. -/
structure ServiceResponse where
  content : String
  status : Nat
  deriving DecidableEq, Repr

/-- The header-template loop (lines 128-132): render each template in order
into the `headers` dict, emitting one `renderHeader` event per rendered
entry; a render failure propagates the template error. -/
def renderHeaderTemplatesEv (vars : VarMap) :
    List (String × Template) → List (String × String) →
    List Event × Except Unit (List (String × String))
  | [], acc => ([], .ok acc)
  | (n, t) :: rest, acc =>
    match t vars with
    | .error _ => ([], .error ())
    | .ok v =>
      let r := renderHeaderTemplatesEv vars rest (dictInsert acc n v)
      (Event.renderHeader n :: r.1, r.2)

/-- The `content_type` override (lines 134-135): `if content_type:` is a
Python truthiness test, so the header is set only when the option is present
and non-empty. -/
def applyContentTypeOverride (headers : List (String × String))
    (content_type : Option String) : List (String × String) :=
  match content_type with
  | some ct => if ct ≠ "" then dictInsert headers "Content-Type" ct else headers
  | none => headers

/-- Request construction (lines 118-145): render the URL, get the `"file"`
variable, check existence, render headers, apply the override, compute the
basic-auth pair (lines 108-112), open the file and assemble the request.
Returns the events so far plus either an error or the rendered
`request_url` with the request to send. -/
def buildRequest (cfg : CommandConfig) (fs : String → Bool)
    (service : ServiceCall) :
    List Event × Except ServiceError (String × RequestRecord) :=
  match cfg.url service.data with
  | .error _ => ([], .error .templateError)
  | .ok request_url =>
    match dictGet service.data "file" with
    | none =>
      ([], .error (.typeError "stat: path should be string, not NoneType"))
    | some file_path =>
      if fs file_path then
        match renderHeaderTemplatesEv service.data cfg.headers [] with
        | (evs, .error _) => (evs, .error .templateError)
        | (evs, .ok rendered) =>
          let headers := applyContentTypeOverride rendered cfg.content_type
          let auth : Option (String × String) :=
            match cfg.username with
            | some u => some (u, cfg.password.getD "")
            | none => none
          let req : RequestRecord :=
            { method := cfg.method
              url := request_url
              headers := if headers = [] then none else some headers
              auth := auth
              timeout := cfg.timeout }
          (evs ++ [Event.openFile file_path], .ok (request_url, req))
      else
        ([], .error (.fileNotFound file_path))

/-- Response handling (lines 146-203): log at debug or warning severity by
status, return `None` when no response was requested, otherwise read the
body (JSON when the content type is exactly `application/json`, text
otherwise) and map decode exceptions to `decoding_error` by exception type;
transport faults map to `timeout` / `client_error`. -/
def handleResponse (request_url : String) (return_response : Bool)
    (tr : TransportResult) :
    List Event × Except ServiceError (Option ServiceResponse) :=
  match tr with
  | .timeoutError => ([], .error (.timeout request_url))
  | .clientError => ([Event.logError], .error (.clientError request_url))
  | .ok resp =>
    let logEv :=
      if resp.status < 400 then Event.logDebug resp.url resp.status
      else Event.logWarning resp.url resp.status
    if return_response then
      let decodeRes :=
        if resp.content_type = "application/json" then resp.json else resp.text
      match decodeRes with
      | .ok content =>
        ([logEv, Event.readBody],
          .ok (some { content := content, status := resp.status }))
      | .error DecodeExn.jsonDecodeError =>
        ([logEv, Event.readBody], .error (.decodingError request_url "JSON"))
      | .error DecodeExn.attributeError =>
        ([logEv, Event.readBody], .error (.decodingError request_url "JSON"))
      | .error DecodeExn.unicodeDecodeError =>
        ([logEv, Event.readBody], .error (.decodingError request_url "text"))
    else
      ([logEv], .ok none)

/-- The per-command service handler `async_service_handler` (lines
118-203): build the request, send it once over the transport, handle the
response.  The returned event list is the invocation's full trace. -/
def async_service_handler (cfg : CommandConfig) (fs : String → Bool)
    (transport : RequestRecord → TransportResult) (service : ServiceCall) :
    List Event × Except ServiceError (Option ServiceResponse) :=
  match buildRequest cfg fs service with
  | (evs, .error e) => (evs, .error e)
  | (evs, .ok (request_url, req)) =>
    let r := handleResponse request_url service.return_response (transport req)
    (evs ++ Event.networkRequest req :: r.1, r.2)

/-- Count of network requests in a trace (for the no-retry property). -/
def netCount (evs : List Event) : Nat :=
  (evs.filter (fun e => match e with
    | Event.networkRequest _ => true
    | _ => false)).length

/-! The service registry.  `hass.services` maps service names to handlers
within the `rest_file_command` domain; it is modelled as an association
list from names to an abstract handler/definition type `α` (the registry
code never inspects the values). -/

/-- Model of `hass.services.async_remove(DOMAIN, name)` (line 94): drop the named
service. -/
def svcRemove {α : Type} (reg : List (String × α)) (name : String) :
    List (String × α) :=
  reg.filter (fun p => p.1 != name)

/-- Model of `hass.services.async_register(DOMAIN, name, ...)` (line 206): insert or
overwrite the named service. -/
def svcRegister {α : Type} (reg : List (String × α)) (name : String)
    (v : α) : List (String × α) :=
  dictInsert reg name v

/-- The mutation block of `reload_service_handler` (lines 90-97): snapshot
the existing service names, remove each except `reload`, then register every
command of the freshly loaded config. -/
def reload_apply {α : Type} (reg : List (String × α))
    (newDefs : List (String × α)) : List (String × α) :=
  let existing := reg.map Prod.fst
  let reg1 := existing.foldl
    (fun r n => if n = "reload" then r else svcRemove r n) reg
  newDefs.foldl (fun r p => svcRegister r p.1 p.2) reg1

/-- The reload service handler (lines 82-97).  `conf` is the result of
`async_integration_yaml_config`: `none` when the configuration cannot be
parsed, in which case the handler returns at once and the registry is
untouched.  The second component lists the registry contents at every
suspension point of the coroutine: the single `await` (line 84) happens
before any mutation, and the remove/register loops run synchronously on the
event loop with no `await` between them, so the only registry states a
concurrent lookup can observe are the pre-reload state (during the config
load) and the final state. -/
def reload_service_handler {α : Type} (reg : List (String × α))
    (conf : Option (List (String × α))) :
    List (String × α) × List (List (String × α)) :=
  match conf with
  | none => (reg, [reg])
  | some newDefs => (reload_apply reg newDefs, [reg])

/-! Shared lemmas about the dict operations and the handler pipeline. -/

theorem find?_map_update {α : Type} (d : List (String × α)) (k : String)
    (v : α) :
    (d.map (fun p => if p.1 == k then (k, v) else p)).find?
        (fun p => p.1 == k)
      = if d.any (fun p => p.1 == k) then some (k, v) else none := by
  induction d with
  | nil => rfl
  | cons q d ih =>
    cases hq : (q.1 == k) with
    | true =>
      have hq' : q.1 = k := by simpa using hq
      have hmap : (q :: d).map (fun p => if p.1 == k then (k, v) else p)
          = (k, v) :: d.map (fun p => if p.1 == k then (k, v) else p) := by
        simp [hq']
      rw [hmap, List.find?_cons_of_pos _ (by simp), List.any_cons, hq,
        Bool.true_or, if_pos rfl]
    | false =>
      have hq' : ¬ q.1 = k := by simpa using hq
      have hmap : (q :: d).map (fun p => if p.1 == k then (k, v) else p)
          = q :: d.map (fun p => if p.1 == k then (k, v) else p) := by
        simp [hq']
      rw [hmap, List.find?_cons_of_neg _ (by simp [hq']), ih, List.any_cons,
        hq, Bool.false_or]

theorem dictGet_dictInsert_self {α : Type} (d : List (String × α))
    (k : String) (v : α) : dictGet (dictInsert d k v) k = some v := by
  unfold dictInsert dictGet
  split
  case isTrue ha =>
    rw [find?_map_update, if_pos ha]
    simp
  case isFalse ha =>
    have ha' : d.any (fun p => p.1 == k) = false := by
      cases hb : d.any (fun p => p.1 == k) with
      | false => rfl
      | true => exact absurd hb ha
    have hfind : d.find? (fun p => p.1 == k) = none := by
      rw [List.find?_eq_none]
      intro p hp hpk
      have hone : d.any (fun p => p.1 == k) = true :=
        List.any_eq_true.mpr ⟨p, hp, hpk⟩
      rw [ha'] at hone
      exact Bool.noConfusion hone
    rw [List.find?_append, hfind]
    simp

theorem dictInsert_ne_nil {α : Type} (d : List (String × α)) (k : String)
    (v : α) : dictInsert d k v ≠ [] := by
  unfold dictInsert
  cases ha : d.any (fun p => p.1 == k) with
  | true =>
    cases d with
    | nil => simp at ha
    | cons q d => simp
  | false => simp

theorem handler_eq_of_build (cfg : CommandConfig) (fs : String → Bool)
    (transport : RequestRecord → TransportResult) (service : ServiceCall)
    (bevs : List Event) (u : String) (req : RequestRecord)
    (hb : buildRequest cfg fs service = (bevs, .ok (u, req))) :
    async_service_handler cfg fs transport service =
      (bevs ++ Event.networkRequest req ::
          (handleResponse u service.return_response (transport req)).1,
        (handleResponse u service.return_response (transport req)).2) := by
  unfold async_service_handler
  rw [hb]

theorem handler_eq_of_build_error (cfg : CommandConfig) (fs : String → Bool)
    (transport : RequestRecord → TransportResult) (service : ServiceCall)
    (bevs : List Event) (e : ServiceError)
    (hb : buildRequest cfg fs service = (bevs, .error e)) :
    async_service_handler cfg fs transport service = (bevs, .error e) := by
  unfold async_service_handler
  rw [hb]

theorem renderHeaderTemplatesEv_events (vars : VarMap)
    (ts : List (String × Template)) (acc : List (String × String)) :
    ∀ e ∈ (renderHeaderTemplatesEv vars ts acc).1,
      ∃ n, e = Event.renderHeader n := by
  induction ts generalizing acc with
  | nil => intro e he; exact absurd he (List.not_mem_nil e)
  | cons nt rest ih =>
    intro e he
    unfold renderHeaderTemplatesEv at he
    cases hr : nt.2 vars with
    | error err => rw [hr] at he; exact absurd he (List.not_mem_nil e)
    | ok v =>
      rw [hr] at he
      rcases List.mem_cons.mp he with h | h
      · exact ⟨nt.1, h⟩
      · exact ih (dictInsert acc nt.1 v) e h

theorem buildRequest_events (cfg : CommandConfig) (fs : String → Bool)
    (service : ServiceCall) :
    ∀ e ∈ (buildRequest cfg fs service).1,
      (∃ n, e = Event.renderHeader n) ∨ (∃ p, e = Event.openFile p) := by
  intro e he
  unfold buildRequest at he
  cases hu : cfg.url service.data with
  | error err => simp only [hu] at he; exact absurd he (List.not_mem_nil e)
  | ok request_url =>
    simp only [hu] at he
    cases hf : dictGet service.data "file" with
    | none => simp only [hf] at he; exact absurd he (List.not_mem_nil e)
    | some file_path =>
      simp only [hf] at he
      cases hfs : fs file_path with
      | false => simp [hfs] at he
      | true =>
        simp only [hfs, eq_self_iff_true, if_true] at he
        cases hh : renderHeaderTemplatesEv service.data cfg.headers [] with
        | mk evs res =>
          cases res with
          | error err =>
            simp only [hh] at he
            left
            have := renderHeaderTemplatesEv_events service.data cfg.headers []
            rw [hh] at this
            exact this e he
          | ok rendered =>
            simp only [hh] at he
            rcases List.mem_append.mp he with h | h
            · left
              have := renderHeaderTemplatesEv_events service.data cfg.headers []
              rw [hh] at this
              exact this e h
            · right
              exact ⟨file_path, List.mem_singleton.mp h⟩

theorem netCount_eq_zero (evs : List Event)
    (h : ∀ e ∈ evs, ∀ r, e ≠ Event.networkRequest r) : netCount evs = 0 := by
  unfold netCount
  rw [List.length_eq_zero, List.filter_eq_nil_iff]
  intro e he
  cases e with
  | networkRequest r => exact absurd rfl (h _ he r)
  | renderHeader n => simp
  | openFile p => simp
  | readBody => simp
  | logDebug u s => simp
  | logWarning u s => simp
  | logError => simp

theorem netCount_append (l1 l2 : List Event) :
    netCount (l1 ++ l2) = netCount l1 + netCount l2 := by
  unfold netCount
  rw [List.filter_append, List.length_append]

theorem buildRequest_netCount (cfg : CommandConfig) (fs : String → Bool)
    (service : ServiceCall) : netCount (buildRequest cfg fs service).1 = 0 := by
  apply netCount_eq_zero
  intro e he r
  rcases buildRequest_events cfg fs service e he with ⟨n, rfl⟩ | ⟨p, rfl⟩ <;>
    simp

theorem handleResponse_events (u : String) (want : Bool)
    (tr : TransportResult) :
    ∀ e ∈ (handleResponse u want tr).1,
      e = Event.logError ∨ e = Event.readBody ∨
      (∃ v s, e = Event.logDebug v s) ∨ (∃ v s, e = Event.logWarning v s) := by
  intro e he
  unfold handleResponse at he
  cases tr with
  | timeoutError => exact absurd he (List.not_mem_nil e)
  | clientError =>
    simp only at he
    rw [List.mem_singleton] at he
    exact Or.inl he
  | ok resp =>
    simp only at he
    cases hw : want with
    | false =>
      rw [hw] at he
      simp only [Bool.false_eq_true, if_false, List.mem_singleton] at he
      subst he
      by_cases hs : resp.status < 400
      · rw [if_pos hs]; exact Or.inr (Or.inr (Or.inl ⟨_, _, rfl⟩))
      · rw [if_neg hs]; exact Or.inr (Or.inr (Or.inr ⟨_, _, rfl⟩))
    | true =>
      rw [hw] at he
      simp only [if_true] at he
      have hlog : ∀ x : Event,
          x = (if resp.status < 400 then Event.logDebug resp.url resp.status
            else Event.logWarning resp.url resp.status) →
          (∃ v s, x = Event.logDebug v s) ∨ (∃ v s, x = Event.logWarning v s) := by
        intro x hx
        by_cases hs : resp.status < 400
        · rw [if_pos hs] at hx; exact Or.inl ⟨_, _, hx⟩
        · rw [if_neg hs] at hx; exact Or.inr ⟨_, _, hx⟩
      cases hd : (if resp.content_type = "application/json" then resp.json
          else resp.text) with
      | ok v =>
        rw [hd] at he
        rcases List.mem_cons.mp he with h | h
        · exact Or.inr (Or.inr (hlog e h))
        · rw [List.mem_singleton] at h; exact Or.inr (Or.inl h)
      | error exn =>
        rw [hd] at he
        cases exn <;>
          · rcases List.mem_cons.mp he with h | h
            · exact Or.inr (Or.inr (hlog e h))
            · rw [List.mem_singleton] at h; exact Or.inr (Or.inl h)

theorem handleResponse_netCount (u : String) (want : Bool)
    (tr : TransportResult) : netCount (handleResponse u want tr).1 = 0 := by
  apply netCount_eq_zero
  intro e he r
  rcases handleResponse_events u want tr e he with h | h | ⟨v, s, h⟩ | ⟨v, s, h⟩ <;>
    · subst h; simp

/-! Claim theorems. -/

/-- C1: for every invocation whose `file` path does not exist on the
filesystem at build time, the invocation fails with the FileNotFound error
carrying that path, and its event trace is empty: in particular no header
template is rendered, no file is opened, and no network request is issued
(the existence check at line 125 precedes the header loop at line 129 and
the aiohttp call at line 140). -/
theorem c1_preflight_file_not_found (cfg : CommandConfig)
    (fs : String → Bool) (transport : RequestRecord → TransportResult)
    (service : ServiceCall) (u p : String)
    (hurl : cfg.url service.data = .ok u)
    (hfile : dictGet service.data "file" = some p)
    (hmiss : fs p = false) :
    async_service_handler cfg fs transport service
      = ([], .error (.fileNotFound p)) := by
  have hb : buildRequest cfg fs service = ([], .error (.fileNotFound p)) := by
    unfold buildRequest
    rw [hurl, hfile]
    simp [hmiss]
  exact handler_eq_of_build_error cfg fs transport service [] _ hb

/-- The `send_photo` scenario of the spec: method post, url
`https://api.example.com/upload`, no headers, no auth, defaults. -/
def sendPhotoCfg : CommandConfig :=
  { url := fun _ => .ok "https://api.example.com/upload"
    method := .post
    headers := []
    username := none
    password := none
    timeout := 10
    content_type := none
    verify_ssl := true }

/-- Witness for C1: the `send_photo` scenario of the spec, invoked with
`file=/missing.jpg` on a filesystem where the path is absent. -/
theorem c1_preflight_file_not_found_witness :
    async_service_handler sendPhotoCfg (fun _ => false) (fun _ => .clientError)
        { data := [("file", "/missing.jpg")], return_response := false }
      = ([], .error (.fileNotFound "/missing.jpg")) :=
  c1_preflight_file_not_found sendPhotoCfg (fun _ => false) (fun _ => .clientError)
    { data := [("file", "/missing.jpg")], return_response := false }
    "https://api.example.com/upload" "/missing.jpg" rfl rfl rfl

theorem removeLoop_eq {α : Type} (ns : List String)
    (reg : List (String × α)) :
    ns.foldl (fun r n => if n = "reload" then r else svcRemove r n) reg
      = reg.filter (fun p => decide (p.1 = "reload" ∨ p.1 ∉ ns)) := by
  induction ns generalizing reg with
  | nil => simp
  | cons n ns ih =>
    rw [List.foldl_cons]
    by_cases hn : n = "reload"
    · rw [if_pos hn, ih]
      apply List.filter_congr
      intro p hp
      by_cases hr : p.1 = "reload"
      · simp [hr]
      · have hpn : p.1 ≠ n := by rw [hn]; exact hr
        by_cases hm : p.1 ∈ ns <;> simp [hr, hm, hpn]
    · rw [if_neg hn, ih]
      unfold svcRemove
      rw [List.filter_filter]
      apply List.filter_congr
      intro p hp
      have hn2 : ¬ "reload" = n := fun h => hn h.symm
      by_cases hr : p.1 = "reload"
      · have hpn : p.1 ≠ n := by rw [hr]; exact hn2
        simp [hr, hpn, hn2]
      · by_cases hpn : p.1 = n
        · simp [hr, hpn, hn]
        · by_cases hm : p.1 ∈ ns <;> simp [hr, hpn, hm]

theorem filter_reload_singleton {α : Type} (reg : List (String × α))
    (rdef : α) (hnd : (reg.map Prod.fst).Nodup)
    (hmem : ("reload", rdef) ∈ reg) :
    reg.filter (fun p => decide (p.1 = "reload")) = [("reload", rdef)] := by
  induction reg with
  | nil => exact absurd hmem (List.not_mem_nil _)
  | cons q reg ih =>
    rw [List.map_cons, List.nodup_cons] at hnd
    rcases List.mem_cons.mp hmem with h | h
    · have hrest : reg.filter (fun p => decide (p.1 = "reload")) = [] := by
        rw [List.filter_eq_nil_iff]
        intro p hp
        simp only [decide_eq_true_eq]
        intro hpk
        apply hnd.1
        rw [← h]
        rw [← hpk]
        exact List.mem_map.mpr ⟨p, hp, rfl⟩
      rw [List.filter_cons_of_pos (by rw [← h]; simp), hrest, ← h]
    · have hq : q.1 ≠ "reload" := by
        intro he
        apply hnd.1
        rw [he]
        exact List.mem_map.mpr ⟨("reload", rdef), h, rfl⟩
      rw [List.filter_cons_of_neg (by simp [hq]), ih hnd.2 h]

theorem dictInsert_of_fresh {α : Type} (d : List (String × α)) (k : String)
    (v : α) (h : ∀ p ∈ d, p.1 ≠ k) : dictInsert d k v = d ++ [(k, v)] := by
  unfold dictInsert
  have ha : d.any (fun p => p.1 == k) = false := by
    rw [List.any_eq_false]
    intro p hp
    simp [h p hp]
  rw [ha, if_neg Bool.false_ne_true]

theorem foldl_register_fresh {α : Type} (ds : List (String × α)) :
    ∀ acc : List (String × α),
    (∀ p ∈ ds, ∀ q ∈ acc, q.1 ≠ p.1) → (ds.map Prod.fst).Nodup →
    ds.foldl (fun r p => svcRegister r p.1 p.2) acc = acc ++ ds := by
  induction ds with
  | nil => intro acc _ _; simp
  | cons d ds ih =>
    intro acc hfresh hnd
    rw [List.map_cons, List.nodup_cons] at hnd
    rw [List.foldl_cons]
    have hstep : svcRegister acc d.1 d.2 = acc ++ [d] :=
      dictInsert_of_fresh acc d.1 d.2
        (fun q hq => hfresh d (List.mem_cons_self d ds) q hq)
    rw [hstep, ih (acc ++ [d]) ?fresh hnd.2]
    · simp
    case fresh =>
      intro p hp q hq
      rcases List.mem_append.mp hq with hq' | hq'
      · exact hfresh p (List.mem_cons_of_mem d hp) q hq'
      · rw [List.mem_singleton] at hq'
        subst hq'
        intro he
        apply hnd.1
        rw [he]
        exact List.mem_map.mpr ⟨p, hp, rfl⟩

/-- C3: reload is atomic over the registry.  The final registry after a
successful reload is exactly the reserved `reload` entry followed by the
new definitions; every registry state observable at a suspension point of
the reload coroutine is the full pre-reload set (the remove and register
loops at lines 90-97 run synchronously after the single `await`, so no
partial mix is ever observable); and when the new configuration cannot be
parsed (`conf is None`, line 87) the handler returns with the old set fully
intact. -/
theorem c3_reload_atomicity {α : Type} (reg newDefs : List (String × α))
    (rdef : α) (hnd : (reg.map Prod.fst).Nodup)
    (hmem : ("reload", rdef) ∈ reg)
    (hndNew : (newDefs.map Prod.fst).Nodup)
    (hfresh : "reload" ∉ newDefs.map Prod.fst) :
    reload_service_handler reg none = (reg, [reg]) ∧
    (reload_service_handler reg (some newDefs)).1
      = ("reload", rdef) :: newDefs ∧
    ∀ conf : Option (List (String × α)),
      ∀ s ∈ (reload_service_handler reg conf).2, s = reg := by
  refine ⟨rfl, ?_, ?_⟩
  · show reload_apply reg newDefs = _
    simp only [reload_apply]
    rw [removeLoop_eq]
    have hfilter : reg.filter
        (fun p => decide (p.1 = "reload" ∨ p.1 ∉ reg.map Prod.fst))
        = reg.filter (fun p => decide (p.1 = "reload")) := by
      apply List.filter_congr
      intro p hp
      have hpm : p.1 ∈ reg.map Prod.fst := List.mem_map.mpr ⟨p, hp, rfl⟩
      simp [hpm]
    rw [hfilter, filter_reload_singleton reg rdef hnd hmem]
    rw [foldl_register_fresh newDefs [("reload", rdef)] ?_ hndNew]
    · rfl
    · intro p hp q hq
      rw [List.mem_singleton] at hq
      subst hq
      intro he
      apply hfresh
      have he' : "reload" = p.1 := he
      rw [he']
      exact List.mem_map.mpr ⟨p, hp, rfl⟩
  · intro conf s hs
    cases conf <;>
      · simp [reload_service_handler] at hs
        exact hs

/-- Witness for C3: reloading a registry holding `reload` and `send_photo`
with a configuration defining only `send_doc` leaves exactly the reserved
entry plus the new command. -/
theorem c3_reload_atomicity_witness :
    (reload_service_handler [("reload", 0), ("send_photo", 1)]
        (some [("send_doc", 2)])).1
      = [("reload", 0), ("send_doc", 2)] :=
  (c3_reload_atomicity [("reload", 0), ("send_photo", 1)] [("send_doc", 2)]
    0 (by decide) (by decide) (by decide) (by decide)).2.1

/-- C5 (code bug): an invocation supplying no `file` parameter is NOT
rejected with a classified error.  `CALL_SCHEMA` (lines 68-72) declares
`file` as required, but it is never attached to the service registration
(line 206), so `service.data.get("file")` yields `None` and
`os.path.exists(None)` raises a bare `TypeError` — an unclassified failure
outside the five-variant taxonomy.  This theorem evaluates the handler at
the failing input (an invocation with empty data on a valid command) and
shows the escaping error is unclassified. -/
theorem c5_missing_file_param_unclassified :
    (async_service_handler sendPhotoCfg (fun _ => true) (fun _ => .clientError)
        { data := [], return_response := false }).2
      = .error (.typeError "stat: path should be string, not NoneType") ∧
    ServiceError.isClassified
        (.typeError "stat: path should be string, not NoneType") = false :=
  ⟨rfl, rfl⟩

/-- C7: when the transport raises a timeout the invocation fails with the
Timeout error carrying the resolved URL (lines 190-195); when it raises any
other client-level error the invocation fails with the ClientError carrying
the resolved URL and an error-severity event is logged (lines 197-203);
and the trace holds exactly one network request — no fault is ever
retried. -/
theorem c7_transport_faults (cfg : CommandConfig) (fs : String → Bool)
    (transport : RequestRecord → TransportResult) (service : ServiceCall)
    (bevs : List Event) (u : String) (req : RequestRecord)
    (hb : buildRequest cfg fs service = (bevs, .ok (u, req))) :
    (transport req = .timeoutError →
      (async_service_handler cfg fs transport service).2
        = .error (.timeout u)) ∧
    (transport req = .clientError →
      (async_service_handler cfg fs transport service).2
          = .error (.clientError u) ∧
      Event.logError ∈ (async_service_handler cfg fs transport service).1) ∧
    netCount (async_service_handler cfg fs transport service).1 = 1 := by
  rw [handler_eq_of_build cfg fs transport service bevs u req hb]
  refine ⟨?_, ?_, ?_⟩
  · intro ht
    rw [ht]
    rfl
  · intro ht
    rw [ht]
    exact ⟨rfl, by simp [handleResponse]⟩
  · have h1 : netCount bevs = 0 := by
      have := buildRequest_netCount cfg fs service
      rw [hb] at this
      exact this
    have h2 : netCount
        (handleResponse u service.return_response (transport req)).1 = 0 :=
      handleResponse_netCount u service.return_response (transport req)
    have hcons : netCount (Event.networkRequest req ::
        (handleResponse u service.return_response (transport req)).1)
        = 1 + netCount
            (handleResponse u service.return_response (transport req)).1 := by
      unfold netCount
      rw [List.filter_cons_of_pos (by simp), List.length_cons]
      omega
    rw [netCount_append, h1, hcons, h2]

/-- Witness for C7: a concrete command whose transport times out. -/
theorem c7_transport_faults_witness :
    ((async_service_handler sendPhotoCfg (fun _ => true)
        (fun _ => .timeoutError)
        { data := [("file", "/tmp/a.jpg")], return_response := false }).2
      = .error (.timeout "https://api.example.com/upload")) ∧
    netCount (async_service_handler sendPhotoCfg (fun _ => true)
        (fun _ => .timeoutError)
        { data := [("file", "/tmp/a.jpg")], return_response := false }).1
      = 1 := by
  have h := c7_transport_faults sendPhotoCfg (fun _ => true)
    (fun _ => .timeoutError)
    { data := [("file", "/tmp/a.jpg")], return_response := false }
    [Event.openFile "/tmp/a.jpg"] "https://api.example.com/upload"
    { method := .post, url := "https://api.example.com/upload"
      headers := none, auth := none, timeout := 10 } rfl
  exact ⟨h.1 rfl, h.2.2⟩

theorem handleResponse_no_readBody_of_not_want (u : String)
    (tr : TransportResult) :
    Event.readBody ∉ (handleResponse u false tr).1 := by
  unfold handleResponse
  cases tr with
  | timeoutError => simp
  | clientError => simp
  | ok resp =>
    simp only [Bool.false_eq_true, if_false]
    intro hmem
    rw [List.mem_singleton] at hmem
    by_cases hs : resp.status < 400
    · rw [if_pos hs] at hmem; exact Event.noConfusion hmem
    · rw [if_neg hs] at hmem; exact Event.noConfusion hmem

/-- C8: for every invocation with `return_response` false, the response
body stream is never read — no `readBody` event occurs in the trace on any
path, regardless of the response status or content type — and when the
transport produces a response the invocation returns no value (the `if not
service.return_response: return None` at lines 160-161 precedes the body
read at lines 166-168). -/
theorem c8_no_body_read (cfg : CommandConfig) (fs : String → Bool)
    (transport : RequestRecord → TransportResult) (service : ServiceCall)
    (hwant : service.return_response = false) :
    Event.readBody ∉ (async_service_handler cfg fs transport service).1 ∧
    (∀ bevs u req resp, buildRequest cfg fs service = (bevs, .ok (u, req)) →
      transport req = .ok resp →
      (async_service_handler cfg fs transport service).2 = .ok none) := by
  constructor
  · intro hmem
    have hnb : ∀ e ∈ (buildRequest cfg fs service).1,
        e ≠ Event.readBody := by
      intro e he
      rcases buildRequest_events cfg fs service e he with ⟨n, rfl⟩ | ⟨p, rfl⟩ <;>
        simp
    cases hbr : buildRequest cfg fs service with
    | mk bevs res =>
      cases res with
      | error e =>
        rw [handler_eq_of_build_error cfg fs transport service bevs e hbr]
          at hmem
        rw [hbr] at hnb
        exact hnb Event.readBody hmem rfl
      | ok pr =>
        rw [handler_eq_of_build cfg fs transport service bevs pr.1 pr.2
          (by rw [hbr])] at hmem
        rw [hbr] at hnb
        rcases List.mem_append.mp hmem with h | h
        · exact hnb Event.readBody h rfl
        · rcases List.mem_cons.mp h with h' | h'
          · exact Event.noConfusion h'
          · rw [hwant] at h'
            exact handleResponse_no_readBody_of_not_want pr.1
              (transport pr.2) h'
  · intro bevs u req resp hb ht
    rw [handler_eq_of_build cfg fs transport service bevs u req hb]
    show (handleResponse u service.return_response (transport req)).2
      = .ok none
    rw [hwant, ht]
    unfold handleResponse
    simp

/-- A concrete status-500 response with a readable text body. -/
def resp500 : RawResponse :=
  { status := 500
    url := "https://api.example.com/upload"
    content_type := "text/plain"
    json := .ok "x"
    text := .ok "error" }

/-- Witness for C8: scenario 3 of the spec — status 500 with
`want_response=false` returns nothing and never reads the body. -/
theorem c8_no_body_read_witness :
    Event.readBody ∉ (async_service_handler sendPhotoCfg (fun _ => true)
        (fun _ => .ok resp500)
        { data := [("file", "/tmp/a.jpg")], return_response := false }).1 ∧
    (async_service_handler sendPhotoCfg (fun _ => true)
        (fun _ => .ok resp500)
        { data := [("file", "/tmp/a.jpg")], return_response := false }).2
      = .ok none := by
  have h := c8_no_body_read sendPhotoCfg (fun _ => true) (fun _ => .ok resp500)
    { data := [("file", "/tmp/a.jpg")], return_response := false } rfl
  exact ⟨h.1, h.2 [Event.openFile "/tmp/a.jpg"] "https://api.example.com/upload"
    { method := .post, url := "https://api.example.com/upload"
      headers := none, auth := none, timeout := 10 } resp500 rfl rfl⟩

theorem handleResponse_log_mem (u : String) (want : Bool)
    (resp : RawResponse) :
    (if resp.status < 400 then Event.logDebug resp.url resp.status
      else Event.logWarning resp.url resp.status)
      ∈ (handleResponse u want (.ok resp)).1 := by
  cases want with
  | false => simp [handleResponse]
  | true =>
    cases hd : (if resp.content_type = "application/json" then resp.json
        else resp.text) with
    | ok v => simp [handleResponse, hd]
    | error exn => cases exn <;> simp [handleResponse, hd]

theorem handleResponse_result_not_want (u : String) (resp : RawResponse) :
    (handleResponse u false (.ok resp)).2 = .ok none := by
  simp [handleResponse]

theorem handleResponse_result_decode_ok (u : String) (resp : RawResponse)
    (v : String)
    (hd : (if resp.content_type = "application/json" then resp.json
      else resp.text) = .ok v) :
    (handleResponse u true (.ok resp)).2
      = .ok (some { content := v, status := resp.status }) := by
  simp [handleResponse, hd]

/-- The discriminator string the handler reports for a decode exception:
the except clauses at lines 169 and 179 select it by exception type alone
(`JSONDecodeError`/`AttributeError` report "JSON", `UnicodeDecodeError`
reports "text"), not by which decode branch raised. -/
def decodingTypeOf : DecodeExn → String
  | .jsonDecodeError => "JSON"
  | .attributeError => "JSON"
  | .unicodeDecodeError => "text"

theorem handleResponse_result_decode_error (u : String) (resp : RawResponse)
    (exn : DecodeExn)
    (hd : (if resp.content_type = "application/json" then resp.json
      else resp.text) = .error exn) :
    (handleResponse u true (.ok resp)).2
      = .error (.decodingError u (decodingTypeOf exn)) := by
  cases exn <;> simp [handleResponse, hd, decodingTypeOf]

/-- A status-500 `application/json` response whose body is not valid
JSON. -/
def c2resp : RawResponse :=
  { status := 500
    url := "https://api.example.com/upload"
    content_type := "application/json"
    json := .error .jsonDecodeError
    text := .ok "x" }

/-- Counterexample to C2 as stated: this invocation receives a status-500
response (status ≥ 400) with a response requested, yet it does NOT return
`(content, status)` — it fails with DecodingError, because the JSON body
cannot be decoded.  The soft-failure policy covers only the status itself,
not the subsequent body decode. -/
theorem c2_counterexample :
    (async_service_handler sendPhotoCfg (fun _ => true)
        (fun _ => .ok c2resp)
        { data := [("file", "/tmp/a.jpg")], return_response := true }).2
      = .error (.decodingError "https://api.example.com/upload" "JSON") :=
  rfl

/-- C2 (amended): for every response with status ≥ 400 the status itself
does not fail the invocation: a warning-severity event carrying the
response status and URL is emitted, the invocation returns nothing when no
response is requested, and returns `(content, status)` when a response is
requested and the body decodes successfully (an undecodable body still
fails with DecodingError); for status < 400 a debug-severity event is
emitted instead. -/
theorem c2_soft_failure (cfg : CommandConfig) (fs : String → Bool)
    (transport : RequestRecord → TransportResult) (service : ServiceCall)
    (bevs : List Event) (u : String) (req : RequestRecord)
    (resp : RawResponse)
    (hb : buildRequest cfg fs service = (bevs, .ok (u, req)))
    (ht : transport req = .ok resp) :
    (400 ≤ resp.status →
      Event.logWarning resp.url resp.status
        ∈ (async_service_handler cfg fs transport service).1 ∧
      (service.return_response = false →
        (async_service_handler cfg fs transport service).2 = .ok none) ∧
      (∀ v, service.return_response = true →
        (if resp.content_type = "application/json" then resp.json
          else resp.text) = .ok v →
        (async_service_handler cfg fs transport service).2
          = .ok (some { content := v, status := resp.status }))) ∧
    (resp.status < 400 →
      Event.logDebug resp.url resp.status
        ∈ (async_service_handler cfg fs transport service).1) := by
  rw [handler_eq_of_build cfg fs transport service bevs u req hb, ht]
  constructor
  · intro hs
    have hlog := handleResponse_log_mem u service.return_response resp
    rw [if_neg (by omega)] at hlog
    refine ⟨?_, ?_, ?_⟩
    · exact List.mem_append_right bevs (List.mem_cons_of_mem _ hlog)
    · intro hw
      rw [hw]
      exact handleResponse_result_not_want u resp
    · intro v hw hd
      rw [hw]
      exact handleResponse_result_decode_ok u resp v hd
  · intro hs
    have hlog := handleResponse_log_mem u service.return_response resp
    rw [if_pos hs] at hlog
    exact List.mem_append_right bevs (List.mem_cons_of_mem _ hlog)

/-- Witness for C2 (amended): scenario 3 of the spec — a status-500
response with `want_response=false` returns nothing, and the warning event
carrying status 500 and the URL is in the trace. -/
theorem c2_soft_failure_witness :
    Event.logWarning "https://api.example.com/upload" 500
      ∈ (async_service_handler sendPhotoCfg (fun _ => true)
          (fun _ => .ok resp500)
          { data := [("file", "/tmp/a.jpg")], return_response := false }).1 ∧
    (async_service_handler sendPhotoCfg (fun _ => true)
        (fun _ => .ok resp500)
        { data := [("file", "/tmp/a.jpg")], return_response := false }).2
      = .ok none := by
  have h := c2_soft_failure sendPhotoCfg (fun _ => true) (fun _ => .ok resp500)
    { data := [("file", "/tmp/a.jpg")], return_response := false }
    [Event.openFile "/tmp/a.jpg"] "https://api.example.com/upload"
    { method := .post, url := "https://api.example.com/upload"
      headers := none, auth := none, timeout := 10 } resp500 rfl rfl
  exact ⟨(h.1 (by decide)).1, (h.1 (by decide)).2.1 rfl⟩

/-- A status-200 `application/json` response whose raw bytes are not valid
text, so the JSON decode raises `UnicodeDecodeError`. -/
def c6resp : RawResponse :=
  { status := 200
    url := "https://api.example.com/upload"
    content_type := "application/json"
    json := .error .unicodeDecodeError
    text := .ok "x" }

/-- Counterexample to C6 as stated: on a response with content-type exactly
`application/json` the JSON decode is attempted, but when it fails with a
character-encoding error the DecodingError records the discriminator
"text" — not "JSON", the kind actually attempted — because the except
clauses at lines 169/179 select the discriminator by exception type, not
by attempted branch. -/
theorem c6_counterexample :
    (async_service_handler sendPhotoCfg (fun _ => true)
        (fun _ => .ok c6resp)
        { data := [("file", "/tmp/a.jpg")], return_response := true }).2
      = .error (.decodingError "https://api.example.com/upload" "text") ∧
    "text" ≠ "JSON" :=
  ⟨rfl, by decide⟩

/-- C6 (amended): when a response is requested, a content-type of exactly
`application/json` selects JSON decoding and any other content-type
selects text decoding; a decode failure fails the invocation with
DecodingError carrying the resolved request URL and a discriminator chosen
by the failure's exception type — "JSON" for `JSONDecodeError` and
`AttributeError`, "text" for `UnicodeDecodeError` — so the discriminator
names the attempted kind except when a JSON decode fails with a
character-encoding error, which is recorded as "text". -/
theorem c6_decode_dispatch (cfg : CommandConfig) (fs : String → Bool)
    (transport : RequestRecord → TransportResult) (service : ServiceCall)
    (bevs : List Event) (u : String) (req : RequestRecord)
    (resp : RawResponse)
    (hb : buildRequest cfg fs service = (bevs, .ok (u, req)))
    (ht : transport req = .ok resp)
    (hwant : service.return_response = true) :
    (resp.content_type = "application/json" →
      (∀ v, resp.json = .ok v →
        (async_service_handler cfg fs transport service).2
          = .ok (some { content := v, status := resp.status })) ∧
      (∀ exn, resp.json = .error exn →
        (async_service_handler cfg fs transport service).2
          = .error (.decodingError u (decodingTypeOf exn)))) ∧
    (resp.content_type ≠ "application/json" →
      (∀ v, resp.text = .ok v →
        (async_service_handler cfg fs transport service).2
          = .ok (some { content := v, status := resp.status })) ∧
      (∀ exn, resp.text = .error exn →
        (async_service_handler cfg fs transport service).2
          = .error (.decodingError u (decodingTypeOf exn)))) ∧
    decodingTypeOf .jsonDecodeError = "JSON" ∧
    decodingTypeOf .attributeError = "JSON" ∧
    decodingTypeOf .unicodeDecodeError = "text" := by
  rw [handler_eq_of_build cfg fs transport service bevs u req hb, ht, hwant]
  refine ⟨?_, ?_, rfl, rfl, rfl⟩
  · intro hct
    constructor
    · intro v hv
      exact handleResponse_result_decode_ok u resp v (by rw [if_pos hct, hv])
    · intro exn hexn
      exact handleResponse_result_decode_error u resp exn
        (by rw [if_pos hct, hexn])
  · intro hct
    constructor
    · intro v hv
      exact handleResponse_result_decode_ok u resp v (by rw [if_neg hct, hv])
    · intro exn hexn
      exact handleResponse_result_decode_error u resp exn
        (by rw [if_neg hct, hexn])

/-- A status-200 `application/json` response with a decodable body,
scenario 2 of the spec. -/
def c6respOk : RawResponse :=
  { status := 200
    url := "https://api.example.com/upload"
    content_type := "application/json"
    json := .ok "id: 1"
    text := .ok "x" }

/-- Witness for C6 (amended): a JSON response decodes through the JSON
path and the decoded content is returned with the status. -/
theorem c6_decode_dispatch_witness :
    (async_service_handler sendPhotoCfg (fun _ => true)
        (fun _ => .ok c6respOk)
        { data := [("file", "/tmp/a.jpg")], return_response := true }).2
      = .ok (some { content := "id: 1", status := 200 }) := by
  have h := c6_decode_dispatch sendPhotoCfg (fun _ => true)
    (fun _ => .ok c6respOk)
    { data := [("file", "/tmp/a.jpg")], return_response := true }
    [Event.openFile "/tmp/a.jpg"] "https://api.example.com/upload"
    { method := .post, url := "https://api.example.com/upload"
      headers := none, auth := none, timeout := 10 } c6respOk rfl rfl rfl
  exact (h.1 rfl).1 "id: 1" rfl

theorem buildRequest_ok_inv (cfg : CommandConfig) (fs : String → Bool)
    (service : ServiceCall) (bevs : List Event) (u : String)
    (req : RequestRecord)
    (hb : buildRequest cfg fs service = (bevs, .ok (u, req))) :
    cfg.url service.data = .ok u ∧
    ∃ rendered,
      (renderHeaderTemplatesEv service.data cfg.headers []).2 = .ok rendered ∧
      req = { method := cfg.method
              url := u
              headers :=
                if applyContentTypeOverride rendered cfg.content_type = []
                then none
                else some (applyContentTypeOverride rendered cfg.content_type)
              auth := match cfg.username with
                | some un => some (un, cfg.password.getD "")
                | none => none
              timeout := cfg.timeout } := by
  unfold buildRequest at hb
  cases hu : cfg.url service.data with
  | error e =>
    simp only [hu] at hb
    exact absurd (congrArg Prod.snd hb) (by simp)
  | ok request_url =>
    simp only [hu] at hb
    cases hf : dictGet service.data "file" with
    | none =>
      simp only [hf] at hb
      exact absurd (congrArg Prod.snd hb) (by simp)
    | some file_path =>
      simp only [hf] at hb
      cases hfs : fs file_path with
      | false =>
        simp only [hfs, Bool.false_eq_true, if_false] at hb
        exact absurd (congrArg Prod.snd hb) (by simp)
      | true =>
        simp only [hfs, eq_self_iff_true, if_true] at hb
        cases hh : renderHeaderTemplatesEv service.data cfg.headers [] with
        | mk evs res =>
          cases res with
          | error e =>
            simp only [hh] at hb
            exact absurd (congrArg Prod.snd hb) (by simp)
          | ok rendered =>
            simp only [hh] at hb
            have h2 := congrArg Prod.snd hb
            simp only [Except.ok.injEq, Prod.mk.injEq] at h2
            refine ⟨congrArg Except.ok h2.1, rendered, rfl, ?_⟩
            rw [← h2.2, ← h2.1]

/-- Command with a templated `Content-Type` header and the override set to
the empty string. -/
def c9cfg : CommandConfig :=
  { url := fun _ => .ok "https://api.example.com/upload"
    method := .post
    headers := [("Content-Type", fun _ => .ok "text/html")]
    username := none
    password := none
    timeout := 10
    content_type := some ""
    verify_ssl := true }

/-- Counterexample to C9 as stated: `content_type` set to the empty string
IS set, yet the Python truthiness test `if content_type:` at line 134
skips the override, so the templated `Content-Type` value `text/html` is
sent rather than the override value `""`. -/
theorem c9_counterexample :
    (buildRequest c9cfg (fun _ => true)
        { data := [("file", "/tmp/a.jpg")], return_response := true }).2
      = .ok ("https://api.example.com/upload",
          { method := .post
            url := "https://api.example.com/upload"
            headers := some [("Content-Type", "text/html")]
            auth := none
            timeout := 10 }) ∧ "text/html" ≠ "" :=
  ⟨rfl, by decide⟩

/-- C9 (amended): for every command with a `content_type` override set to
a non-empty string, the request's `Content-Type` header carries the
override value: the override is written into the header dict after the
header-template loop (line 134 follows lines 129-132) and overwrites any
templated header of the same name.  An override set to the empty string is
skipped by the `if content_type:` truthiness test and the templated value
is sent instead. -/
theorem c9_content_type_override (cfg : CommandConfig) (fs : String → Bool)
    (service : ServiceCall) (bevs : List Event) (u : String)
    (req : RequestRecord) (ct : String)
    (hct : cfg.content_type = some ct) (hne : ct ≠ "")
    (hb : buildRequest cfg fs service = (bevs, .ok (u, req))) :
    ∃ hs, req.headers = some hs ∧ dictGet hs "Content-Type" = some ct := by
  obtain ⟨-, rendered, hr, hreq⟩ :=
    buildRequest_ok_inv cfg fs service bevs u req hb
  have hover : applyContentTypeOverride rendered cfg.content_type
      = dictInsert rendered "Content-Type" ct := by
    rw [hct]
    simp only [applyContentTypeOverride]
    rw [if_pos hne]
  refine ⟨dictInsert rendered "Content-Type" ct, ?_,
    dictGet_dictInsert_self rendered "Content-Type" ct⟩
  rw [hreq]
  show (if applyContentTypeOverride rendered cfg.content_type = []
    then none
    else some (applyContentTypeOverride rendered cfg.content_type))
      = some (dictInsert rendered "Content-Type" ct)
  rw [hover, if_neg (dictInsert_ne_nil rendered "Content-Type" ct)]

/-- Command with a templated `Content-Type` header and a non-empty
override. -/
def c9cfgW : CommandConfig :=
  { url := fun _ => .ok "https://api.example.com/upload"
    method := .post
    headers := [("Content-Type", fun _ => .ok "text/html")]
    username := none
    password := none
    timeout := 10
    content_type := some "application/octet-stream"
    verify_ssl := true }

/-- Witness for C9 (amended): with a templated `Content-Type` of
`text/html` and an override of `application/octet-stream`, the request
carries the override. -/
theorem c9_content_type_override_witness :
    ∃ hs, ({ method := Method.post
             url := "https://api.example.com/upload"
             headers := some [("Content-Type", "application/octet-stream")]
             auth := none
             timeout := 10 } : RequestRecord).headers = some hs ∧
      dictGet hs "Content-Type" = some "application/octet-stream" :=
  c9_content_type_override c9cfgW (fun _ => true)
    { data := [("file", "/tmp/a.jpg")], return_response := true }
    [Event.renderHeader "Content-Type", Event.openFile "/tmp/a.jpg"]
    "https://api.example.com/upload" _ "application/octet-stream"
    rfl (by decide) rfl

/-- C10: for a command with no header templates and no `content_type`
override the request is issued with no headers at all: the empty resolved
dict is turned into `None` by the `headers or None` at line 144, so the
transport receives an absent header map rather than an empty one. -/
theorem c10_empty_headers_absent (cfg : CommandConfig) (fs : String → Bool)
    (service : ServiceCall) (bevs : List Event) (u : String)
    (req : RequestRecord)
    (hh : cfg.headers = []) (hct : cfg.content_type = none)
    (hb : buildRequest cfg fs service = (bevs, .ok (u, req))) :
    req.headers = none := by
  obtain ⟨-, rendered, hr, hreq⟩ :=
    buildRequest_ok_inv cfg fs service bevs u req hb
  rw [hh] at hr
  have hrnil : rendered = [] := by
    have : (renderHeaderTemplatesEv service.data [] []).2
        = Except.ok ([] : List (String × String)) := rfl
    rw [this] at hr
    exact (Except.ok.inj hr).symm
  subst hrnil
  rw [hreq]
  show (if applyContentTypeOverride [] cfg.content_type = []
    then none
    else some (applyContentTypeOverride [] cfg.content_type)) = none
  rw [hct]
  rfl

/-- Witness for C10: the `send_photo` command has no header templates and
no override; its request record carries `headers = none`. -/
theorem c10_empty_headers_absent_witness :
    ({ method := Method.post
       url := "https://api.example.com/upload"
       headers := none
       auth := none
       timeout := 10 } : RequestRecord).headers = none :=
  c10_empty_headers_absent sendPhotoCfg (fun _ => true)
    { data := [("file", "/tmp/a.jpg")], return_response := false }
    [Event.openFile "/tmp/a.jpg"] "https://api.example.com/upload" _
    rfl rfl rfl

end RestFileCommand
